import Mathlib

/-!
Verification of the `libmemalloc` fixed-region heap allocator
(src/inc/libmemalloc.h, src/src/libmemalloc.c).

The allocator manages one statically sized byte region (`heap_memory`, of
length `HEAP_SIZE`) that is tiled by blocks, each headed by a
`block_header_t` holding `size` (total block length including the header),
`free`, a diagnostics triple (`file`, `line`, `var_name`) and intrusive
`next`/`prev` links.  The allocator state (`mem_allocator_t`) holds
`free_list` (the head pointer of the block chain), `last_allocated`
(the next-fit cursor) and `heap` (the region base).

Shallow embedding conventions:
- Pointers into the region are modeled as `Nat` byte offsets from the region
  base (`heap` itself is offset 0); nullable pointers are `Option Nat`.
- Header-sized stores are modeled as typed cells in an association list from
  offset to `BlockHeader` (`Mem`).  `MEM_allocatorInit` memsets the region to
  zero, so a load from an offset that was never stored reads the all-zero
  header (`zeroHeader`); partial byte overlap of distinct header cells is not
  representable and never arises in the concrete executions used below.
- `size_t` arithmetic wraps modulo `2^64` (`addw`, `subw`, and `ALIGN`,
  mirroring the `ALIGN` macro's mask arithmetic); the build target is x86-64,
  so `ARCH_ALIGNMENT = 16`, `ALIGNMENT = 8` and `sizeof(block_header_t) = 48`.
- `HEAP_SIZE` is a compile-time constant consumed but not defined by the
  sources; following the spec (sections 6 and 8) it is instantiated to 1024.
- The unbounded C loops (`while (current)`, the next-fit `do/while`) are given
  explicit fuel; a result of `none` means the loop did not finish within the
  fuel (the C code would still be running, or never terminate).
- Early-return argument checks on C pointer arguments that the embedding
  passes by value (`allocator == NULL`, `block == NULL`) have no counterpart
  here; `errno` effects are returned explicitly where a claim depends on them.
-/

/-- Heap size in bytes.  Modelled from the spec: the compile-time constant
`HEAP_SIZE` is consumed, not defined, by the sources (spec section 6); the
spec's concrete scenarios (section 8) fix it to 1024. -/
def HEAP_SIZE : Nat := 1024

/-- User-payload alignment used by the pointer validator (`ALIGNMENT`, 8). -/
def ALIGNMENT : Nat := 8

/-- Architecture alignment for x86-64 (`ARCH_ALIGNMENT`, 16). -/
def ARCH_ALIGNMENT : Nat := 16

/-- Size of `block_header_t` on x86-64: size_t + int + two pointers + int
padding + pointer + pointer = 48 bytes (spec section 8 scenarios). -/
def HDR : Nat := 48

/-- Modulus of `size_t` arithmetic on the 64-bit build target. -/
def SIZE_T_MOD : Nat := 2 ^ 64

/-- Wrapping `size_t` addition. -/
def addw (a b : Nat) : Nat := (a + b) % SIZE_T_MOD

/-- Wrapping `size_t` subtraction. -/
def subw (a b : Nat) : Nat := (a + (SIZE_T_MOD - b % SIZE_T_MOD)) % SIZE_T_MOD

/-- The `ALIGN` macro:
`(((size_t)(size) + ((size_t)ARCH_ALIGNMENT - 1)) & ~((size_t)ARCH_ALIGNMENT - 1))`.
The complement of `(size_t)16 - 1` is `2^64 - 16`. -/
def ALIGN (size : Nat) : Nat :=
  Nat.land ((size + (ARCH_ALIGNMENT - 1)) % SIZE_T_MOD) (SIZE_T_MOD - ARCH_ALIGNMENT)

/-- POSIX error codes used by the source (Linux values). -/
def EINVAL : Int := 22

/-- Out-of-memory error code returned by the placement searches. -/
def ENOMEM : Int := 12

/-- The `block_header_t` struct. -/
structure BlockHeader where
  size : Nat
  free : Bool
  file : Option String
  line : Nat
  varName : Option String
  next : Option Nat
  prev : Option Nat
deriving Repr, DecidableEq

/-- The all-zero header read from region bytes that never held a header
(the region is zeroed by `MEM_allocatorInit`). -/
def zeroHeader : BlockHeader :=
  { size := 0, free := false, file := none, line := 0, varName := none,
    next := none, prev := none }

/-- Header cells of the region: an association list from byte offset to the
header stored there. -/
abbrev Mem : Type := List (Nat × BlockHeader)

/-- Look up the header cell stored at `off`, if any. -/
def lookupHdr (m : Mem) (off : Nat) : Option BlockHeader :=
  match m with
  | [] => none
  | e :: t => if e.1 = off then some e.2 else lookupHdr t off

/-- Read the header at byte offset `off`; unwritten offsets read as zero. -/
def readHdr (m : Mem) (off : Nat) : BlockHeader :=
  (lookupHdr m off).getD zeroHeader

/-- Remove the header cell at `off`, if any. -/
def eraseHdr (m : Mem) (off : Nat) : Mem :=
  match m with
  | [] => []
  | e :: t => if e.1 = off then eraseHdr t off else e :: eraseHdr t off

/-- Store header `h` at byte offset `off`. -/
def writeHdr (m : Mem) (off : Nat) (h : BlockHeader) : Mem :=
  (off, h) :: eraseHdr m off

/-- Read-modify-write of the header at `off`. -/
def updHdr (m : Mem) (off : Nat) (f : BlockHeader → BlockHeader) : Mem :=
  writeHdr m off (f (readHdr m off))

/-- The `mem_allocator_t` state.  `heap` is always offset 0 and is omitted.
`freeList` is the chain-head pointer (`free_list`), `lastAllocated` the
next-fit cursor (`last_allocated`); both are block-header offsets. -/
structure AllocState where
  mem : Mem
  freeList : Nat
  lastAllocated : Nat
deriving Repr, DecidableEq

/-- The `allocation_strategy_t` enum. -/
inductive Strategy where
  | FIRST_FIT
  | NEXT_FIT
  | BEST_FIT
deriving Repr, DecidableEq

/-- `MEM_allocatorInit`: zero the region and install a single free block
spanning the whole heap; `free_list` and `last_allocated` point at it. -/
def MEM_allocatorInit : AllocState :=
  { mem := writeHdr [] 0
      { size := HEAP_SIZE, free := true, file := none, line := 0,
        varName := none, next := none, prev := none },
    freeList := 0,
    lastAllocated := 0 }

/-- The placement predicate shared by all three searches:
`current->free && current->size >= size + sizeof(block_header_t)`. -/
def fits (m : Mem) (size off : Nat) : Bool :=
  (readHdr m off).free && decide (addw size HDR ≤ (readHdr m off).size)

/-- The `while (current)` loop of `MEM_findFirstFit`. -/
def ffLoop (m : Mem) (size : Nat) : Nat → Option Nat → Option (Int × Option Nat)
  | _, none => some (ENOMEM, none)
  | 0, some _ => none
  | fuel + 1, some cur =>
      if fits m size cur then some (0, some cur)
      else ffLoop m size fuel (readHdr m cur).next

/-- `MEM_findFirstFit`: walk the chain from `free_list`, return the first
block passing `fits`; `ENOMEM` when the walk exhausts the chain. -/
def MEM_findFirstFit (fuel : Nat) (s : AllocState) (size : Nat) :
    Option (Int × Option Nat) :=
  ffLoop s.mem size fuel (some s.freeList)

/-- The `do/while` loop of `MEM_findNextFit`: on `next == NULL` the walk
continues at the raw region base (`allocator->heap`, offset 0); it stops when
it returns to the starting block.  Result `some (some b)` is a found block,
`some none` the `ENOMEM` exit, `none` fuel exhaustion. -/
def nfLoop (m : Mem) (size start : Nat) : Nat → Nat → Option (Option Nat)
  | 0, _ => none
  | fuel + 1, cur =>
      if fits m size cur then some (some cur)
      else if ((readHdr m cur).next).getD 0 = start then some none
      else nfLoop m size start fuel (((readHdr m cur).next).getD 0)

/-- `MEM_findNextFit`: start at `last_allocated`; on success the cursor is
updated to the returned block. -/
def MEM_findNextFit (fuel : Nat) (s : AllocState) (size : Nat) :
    Option (Int × Option Nat × AllocState) :=
  match nfLoop s.mem size s.lastAllocated fuel s.lastAllocated with
  | none => none
  | some (some b) => some (0, some b, { s with lastAllocated := b })
  | some none => some (ENOMEM, none, s)

/-- Loop body of `MEM_findBestFit`:
`if (pred && (*best_fit == NULL || current->size < (*best_fit)->size))`. -/
def bestStep (m : Mem) (size : Nat) (best : Option Nat) (cur : Nat) :
    Option Nat :=
  if fits m size cur then
    match best with
    | none => some cur
    | some b =>
        if (readHdr m cur).size < (readHdr m b).size then some cur else some b
  else best

/-- The `while (current)` loop of `MEM_findBestFit`. -/
def bfLoop (m : Mem) (size : Nat) : Nat → Option Nat → Option Nat →
    Option (Option Nat)
  | _, none, best => some best
  | 0, some _, _ => none
  | fuel + 1, some cur, best =>
      bfLoop m size fuel (readHdr m cur).next (bestStep m size best cur)

/-- `MEM_findBestFit`: walk the whole chain from `free_list`, keeping the
strictly smallest passing block; `ENOMEM` when none passes. -/
def MEM_findBestFit (fuel : Nat) (s : AllocState) (size : Nat) :
    Option (Int × Option Nat) :=
  match bfLoop s.mem size fuel (some s.freeList) none with
  | none => none
  | some (some b) => some (0, some b)
  | some none => some (ENOMEM, none)

/-- Loop invariant of the best-fit accumulator: after scanning the blocks of
`p`, `acc` is `none` exactly when no scanned block passed `fits`, and
otherwise holds the first scanned block of minimal size among those passing
`fits`. -/
def BestInv (m : Mem) (size : Nat) (p : List Nat) (acc : Option Nat) : Prop :=
  match acc with
  | none => ∀ x ∈ p, fits m size x = false
  | some b =>
      fits m size b = true ∧
      (∀ x ∈ p, fits m size x = true →
        (readHdr m b).size ≤ (readHdr m x).size) ∧
      ∃ l1 l2, p = l1 ++ b :: l2 ∧
        ∀ x ∈ l1, fits m size x = true →
          (readHdr m b).size < (readHdr m x).size

/-- `MEM_splitBlock`: split block `b` for an allocation of `size` bytes.
When `block->size >= ALIGN(size) + sizeof(header) + ARCH_ALIGNMENT`, a new
free suffix header is written at `b + sizeof(header) + ALIGN(size)`, links are
rewired, and when `free_list == block` the head pointer is reassigned to the
new suffix; otherwise the block is merely marked allocated. -/
def MEM_splitBlock (s : AllocState) (b : Nat) (size : Nat) : AllocState :=
  let aligned := ALIGN size
  let h := readHdr s.mem b
  if addw (addw aligned HDR) ARCH_ALIGNMENT ≤ h.size then
    let nbOff := b + HDR + aligned
    let nb : BlockHeader :=
      { size := subw (subw h.size HDR) aligned, free := true, file := none,
        line := 0, varName := none, next := h.next, prev := some b }
    let m1 := writeHdr s.mem nbOff nb
    let m2 := writeHdr m1 b
      { h with size := addw aligned HDR, free := false, next := some nbOff }
    let m3 :=
      match nb.next with
      | some q => updHdr m2 q (fun hq => { hq with prev := some nbOff })
      | none => m2
    { s with
      mem := m3
      freeList := if s.freeList = b then nbOff else s.freeList }
  else
    { s with mem := writeHdr s.mem b { h with free := false } }

/-- `MEM_mergeBlocks`: forward merge with the address-adjacent block at
`block + block->size` when it is in range and free, then backward merge into
`block->prev` when that is non-null and free; diagnostics are cleared on the
surviving block.  Neither `free_list` nor `last_allocated` is touched. -/
def MEM_mergeBlocks (s : AllocState) (b : Nat) : AllocState :=
  let m0 := s.mem
  let nOff := b + (readHdr m0 b).size
  let m2 :=
    if nOff < HEAP_SIZE ∧ (readHdr m0 nOff).free = true then
      let m1 := updHdr m0 b (fun hb =>
        { hb with size := addw hb.size (readHdr m0 nOff).size,
                  next := (readHdr m0 nOff).next })
      match (readHdr m0 nOff).next with
      | some q => updHdr m1 q (fun hq => { hq with prev := some b })
      | none => m1
    else m0
  let m4 :=
    match (readHdr m2 b).prev with
    | some p =>
        if (readHdr m2 p).free = true then
          let m3 := updHdr m2 p (fun hp =>
            { hp with size := addw hp.size (readHdr m2 b).size,
                      next := (readHdr m2 b).next })
          let m3b :=
            match (readHdr m2 b).next with
            | some q => updHdr m3 q (fun hq => { hq with prev := some p })
            | none => m3
          updHdr m3b p (fun hs =>
            { hs with file := none, line := 0, varName := none })
        else updHdr m2 b (fun hs =>
            { hs with file := none, line := 0, varName := none })
    | none => updHdr m2 b (fun hs =>
        { hs with file := none, line := 0, varName := none })
  { s with mem := m4 }

/-- `MEM_validPointerCheck`: reject null, out-of-range (`ptr` below
`heap + sizeof(header)` or at/after `heap + HEAP_SIZE`), misaligned
(`(ptr - heap) % ALIGNMENT != 0`), header-out-of-range, and
already-free pointers. -/
def MEM_validPointerCheck (s : AllocState) (p : Option Nat) : Int :=
  match p with
  | none => EINVAL
  | some up =>
      if up < HDR ∨ HEAP_SIZE ≤ up then EINVAL
      else if up % ALIGNMENT ≠ 0 then EINVAL
      else if HEAP_SIZE ≤ up - HDR then EINVAL
      else if (readHdr s.mem (up - HDR)).free then EINVAL
      else 0

/-- `MEM_allocatorFree`: validate the pointer, reject double frees, then mark
the block free, clear diagnostics and merge with free neighbours.  Returns
the C `ret` code together with the resulting state. -/
def MEM_allocatorFree (s : AllocState) (p : Option Nat) : Int × AllocState :=
  let v := MEM_validPointerCheck s p
  if v ≠ 0 then (v, s)
  else
    match p with
    | none => (EINVAL, s)
    | some up =>
        let b := up - HDR
        if (readHdr s.mem b).free then (EINVAL, s)
        else
          let m := updHdr s.mem b (fun h =>
            { h with free := true, file := none, line := 0, varName := none })
          (0, MEM_mergeBlocks { s with mem := m } b)

/-- `MEM_allocatorMalloc`: returns `(user pointer, errno written, state)`.
A zero `size` fails with `errno = EINVAL`; a failed search also sets
`errno = EINVAL` (the search's own `ENOMEM` code is discarded there).  On
success the found block is split, stamped with the diagnostics triple, and
the payload offset `block + sizeof(header)` is returned with `errno`
untouched (`none`). -/
def MEM_allocatorMalloc (fuel : Nat) (s : AllocState) (size : Nat)
    (file : Option String) (line : Nat) (varName : Option String)
    (strat : Strategy) : Option (Option Nat × Option Int × AllocState) :=
  if size = 0 then some (none, some EINVAL, s)
  else
    let aligned := ALIGN size
    let search : Option (Int × Option Nat × AllocState) :=
      match strat with
      | .FIRST_FIT =>
          (MEM_findFirstFit fuel s aligned).map (fun r => (r.1, r.2, s))
      | .NEXT_FIT => MEM_findNextFit fuel s aligned
      | .BEST_FIT =>
          (MEM_findBestFit fuel s aligned).map (fun r => (r.1, r.2, s))
    match search with
    | none => none
    | some (ret, fb, s1) =>
        match fb with
        | none => some (none, some EINVAL, s1)
        | some b =>
            if ret ≠ 0 then some (none, some EINVAL, s1)
            else
              let s2 := MEM_splitBlock s1 b aligned
              let s3 := { s2 with mem := updHdr s2.mem b (fun h =>
                { h with file := file, line := line, varName := varName }) }
              some (some (b + HDR), none, s3)

/-- Extract the resulting state of a malloc result, with default `d` for a
run that did not finish within its fuel. -/
def mstate (r : Option (Option Nat × Option Int × AllocState)) (d : AllocState) :
    AllocState :=
  match r with
  | some (_, _, s) => s
  | none => d

/-- Extract the returned user pointer of a malloc result. -/
def mptr (r : Option (Option Nat × Option Int × AllocState)) : Option Nat :=
  match r with
  | some (p, _, _) => p
  | none => none

/-- Walk the region linearly by `current += block->size` from the region base,
as `MEM_allocatorPrintAll` does, collecting `(offset, size, free)` per block;
`none` when a block overruns the region or has size zero within the fuel. -/
def tileWalk (m : Mem) : Nat → Nat → Option (List (Nat × Nat × Bool))
  | 0, _ => none
  | fuel + 1, off =>
      if off = HEAP_SIZE then some []
      else if HEAP_SIZE < off then none
      else
        let h := readHdr m off
        if h.size = 0 then none
        else (tileWalk m fuel (off + h.size)).map
          (fun l => (off, h.size, h.free) :: l)

/-- Whether a tiling (as produced by `tileWalk`) contains two address-adjacent
blocks that are both free. -/
def hasAdjFreePair (l : List (Nat × Nat × Bool)) : Bool :=
  (l.zip l.tail).any (fun e => e.1.2.2 && e.2.2.2)

/-- The sequence of block offsets visited by a next-fit walk that starts at
`cur`, follows `next` and wraps to the region base (offset 0) on the tail,
stopping just before the walk would revisit `start`; `none` when the walk
does not close within the fuel. -/
def nfVisit (m : Mem) (start : Nat) : Nat → Nat → Option (List Nat)
  | 0, _ => none
  | fuel + 1, cur =>
      if ((readHdr m cur).next).getD 0 = start then some [cur]
      else (nfVisit m start fuel (((readHdr m cur).next).getD 0)).map
        (fun l => cur :: l)

/-- The chain as a list of block offsets obtained by following `next` links
from `cur` until null; `none` when the chain does not terminate within fuel. -/
def walkChain (m : Mem) : Nat → Option Nat → Option (List Nat)
  | _, none => some []
  | 0, some _ => none
  | fuel + 1, some cur =>
      (walkChain m fuel (readHdr m cur).next).map (fun l => cur :: l)

/-- Modelled from the spec: the next-fit walk as claim C5 states it, wrapping
from the chain tail to `chain_head` (`free_list`) instead of to the raw
region base.  Same loop discipline as `nfLoop` otherwise. -/
def nfLoopCH (m : Mem) (size start ch : Nat) : Nat → Nat → Option (Option Nat)
  | 0, _ => none
  | fuel + 1, cur =>
      if fits m size cur then some (some cur)
      else if ((readHdr m cur).next).getD ch = start then some none
      else nfLoopCH m size start ch fuel (((readHdr m cur).next).getD ch)

/-- Modelled from the spec: `MEM_findNextFit` as claim C5 states it, with the
wrap target `chain_head` rather than the region base. -/
def findNextFitChainHead (fuel : Nat) (s : AllocState) (size : Nat) :
    Option (Int × Option Nat × AllocState) :=
  match nfLoopCH s.mem size s.lastAllocated s.freeList fuel s.lastAllocated with
  | none => none
  | some (some b) => some (0, some b, { s with lastAllocated := b })
  | some none => some (ENOMEM, none, s)

/-- Trace 1 (claims C1, C3, C6): the balanced sequence
`init; p := malloc(16, FIRST_FIT); free(p)`. -/
def t1_s0 : AllocState := MEM_allocatorInit

/-- First malloc of trace 1; returns payload offset 48. -/
def t1_r1 : Option (Option Nat × Option Int × AllocState) :=
  MEM_allocatorMalloc 64 t1_s0 16 none 0 none .FIRST_FIT

/-- State after the malloc of trace 1. -/
def t1_s1 : AllocState := mstate t1_r1 t1_s0

/-- The free of trace 1 (return code and state). -/
def t1_f : Int × AllocState := MEM_allocatorFree t1_s1 (some 48)

/-- Final state of trace 1. -/
def t1_sF : AllocState := t1_f.2

/-- Trace 4 (claim C4): `init; malloc(16, FF); malloc(16, FF); free(second)`. -/
def t4_r2 : Option (Option Nat × Option Int × AllocState) :=
  MEM_allocatorMalloc 64 t1_s1 16 none 0 none .FIRST_FIT

/-- State after the second malloc of trace 4. -/
def t4_s2 : AllocState := mstate t4_r2 t1_s1

/-- The free of the second allocation of trace 4. -/
def t4_f : Int × AllocState := MEM_allocatorFree t4_s2 (some 112)

/-- Final state of trace 4. -/
def t4_sF : AllocState := t4_f.2

/-- Trace 5 (claim C5): `init`, then three `malloc(240, NEXT_FIT)` filling the
heap except a 160-byte tail block, then `free` of the first allocation. -/
def t5_r1 : Option (Option Nat × Option Int × AllocState) :=
  MEM_allocatorMalloc 64 MEM_allocatorInit 240 none 0 none .NEXT_FIT

/-- Second next-fit malloc of trace 5. -/
def t5_r2 : Option (Option Nat × Option Int × AllocState) :=
  MEM_allocatorMalloc 64 (mstate t5_r1 MEM_allocatorInit) 240 none 0 none .NEXT_FIT

/-- Third next-fit malloc of trace 5. -/
def t5_r3 : Option (Option Nat × Option Int × AllocState) :=
  MEM_allocatorMalloc 64 (mstate t5_r2 MEM_allocatorInit) 240 none 0 none .NEXT_FIT

/-- Free of the first allocation of trace 5. -/
def t5_f : Int × AllocState :=
  MEM_allocatorFree (mstate t5_r3 MEM_allocatorInit) (some 48)

/-- The state claim C5's counterexample is evaluated at: a free 288-byte block
at the region base, two allocated blocks, a free 160-byte tail block;
`free_list = 864`, cursor `last_allocated = 576`. -/
def cs5 : AllocState := t5_f.2

/-- Trace 8 (claim C8): four `malloc(64, NEXT_FIT)`, one `malloc(64,
FIRST_FIT)`, frees of the third and fourth allocations (leaving the next-fit
cursor dangling at the absorbed header at offset 336), a `malloc(16,
NEXT_FIT)` serviced from that stale header, and a final free of the fifth
allocation. -/
def t8_r1 : Option (Option Nat × Option Int × AllocState) :=
  MEM_allocatorMalloc 64 MEM_allocatorInit 64 none 0 none .NEXT_FIT

/-- Second op of trace 8. -/
def t8_r2 : Option (Option Nat × Option Int × AllocState) :=
  MEM_allocatorMalloc 64 (mstate t8_r1 MEM_allocatorInit) 64 none 0 none .NEXT_FIT

/-- Third op of trace 8. -/
def t8_r3 : Option (Option Nat × Option Int × AllocState) :=
  MEM_allocatorMalloc 64 (mstate t8_r2 MEM_allocatorInit) 64 none 0 none .NEXT_FIT

/-- Fourth op of trace 8. -/
def t8_r4 : Option (Option Nat × Option Int × AllocState) :=
  MEM_allocatorMalloc 64 (mstate t8_r3 MEM_allocatorInit) 64 none 0 none .NEXT_FIT

/-- Fifth op of trace 8 (first-fit, so the cursor stays at offset 336). -/
def t8_r5 : Option (Option Nat × Option Int × AllocState) :=
  MEM_allocatorMalloc 64 (mstate t8_r4 MEM_allocatorInit) 64 none 0 none .FIRST_FIT

/-- Sixth op of trace 8: free of the third allocation (payload 272). -/
def t8_f1 : Int × AllocState :=
  MEM_allocatorFree (mstate t8_r5 MEM_allocatorInit) (some 272)

/-- Seventh op of trace 8: free of the fourth allocation (payload 384); its
backward merge absorbs the block the cursor points at. -/
def t8_f2 : Int × AllocState := MEM_allocatorFree t8_f1.2 (some 384)

/-- Eighth op of trace 8: a next-fit malloc serviced from the stale header at
offset 336, which rewires the live header at 448 to a phantom block. -/
def t8_r6 : Option (Option Nat × Option Int × AllocState) :=
  MEM_allocatorMalloc 64 t8_f2.2 16 none 0 none .NEXT_FIT

/-- Ninth op of trace 8: free of the fifth allocation (payload 496); its
backward merge follows the corrupted `prev` into the phantom block, so the
real free neighbour at offset 224 is never coalesced. -/
def t8_f3 : Int × AllocState :=
  MEM_allocatorFree (mstate t8_r6 t8_f2.2) (some 496)

/-- Final state of trace 8. -/
def t8_sF : AllocState := t8_f3.2

/-- Trace 10 (claim C10): `malloc(SIZE_MAX, FIRST_FIT)` against the freshly
initialized allocator. -/
def t10_r : Option (Option Nat × Option Int × AllocState) :=
  MEM_allocatorMalloc 64 MEM_allocatorInit (2 ^ 64 - 1) none 0 none .FIRST_FIT

theorem lookupHdr_cons (e : Nat × BlockHeader) (t : Mem) (x : Nat) :
    lookupHdr (e :: t) x = if e.1 = x then some e.2 else lookupHdr t x := rfl

theorem lookupHdr_eraseHdr (m : Mem) (off x : Nat) :
    lookupHdr (eraseHdr m off) x = if x = off then none else lookupHdr m x := by
  induction m with
  | nil => simp [eraseHdr, lookupHdr]
  | cons e t ih =>
      simp only [eraseHdr]
      by_cases h1 : e.1 = off
      · rw [if_pos h1, ih, lookupHdr_cons]
        by_cases h2 : x = off
        · rw [if_pos h2, if_pos h2]
        · have h3 : ¬ e.1 = x := by
            rw [h1]
            exact fun hh => h2 hh.symm
          rw [if_neg h2, if_neg h2, if_neg h3]
      · rw [if_neg h1, lookupHdr_cons, lookupHdr_cons, ih]
        by_cases h2 : e.1 = x
        · have h3 : ¬ x = off := by
            rw [← h2]
            exact h1
          rw [if_pos h2, if_neg h3, if_pos h2]
        · rw [if_neg h2, if_neg h2]

theorem readHdr_writeHdr (m : Mem) (off x : Nat) (h : BlockHeader) :
    readHdr (writeHdr m off h) x = if x = off then h else readHdr m x := by
  unfold readHdr writeHdr
  by_cases h1 : off = x
  · simp [lookupHdr, h1]
  · have h2 : ¬ x = off := fun hh => h1 hh.symm
    simp [lookupHdr, h1, h2, lookupHdr_eraseHdr]

theorem readHdr_updHdr (m : Mem) (off x : Nat) (f : BlockHeader → BlockHeader) :
    readHdr (updHdr m off f) x = if x = off then f (readHdr m off) else readHdr m x := by
  unfold updHdr
  rw [readHdr_writeHdr]

theorem addw_eq {a b : Nat} (h : a + b < SIZE_T_MOD) : addw a b = a + b :=
  Nat.mod_eq_of_lt h

theorem subw_eq {a b : Nat} (hba : b ≤ a) (ha : a < SIZE_T_MOD) :
    subw a b = a - b := by
  unfold subw
  have hbm : b < SIZE_T_MOD := lt_of_le_of_lt hba ha
  rw [Nat.mod_eq_of_lt hbm]
  have h1 : a + (SIZE_T_MOD - b) = SIZE_T_MOD + (a - b) := by omega
  rw [h1, Nat.add_mod_left]
  exact Nat.mod_eq_of_lt (by omega)

theorem validPointerCheck_zero_or_einval (s : AllocState) (p : Option Nat) :
    MEM_validPointerCheck s p = 0 ∨ MEM_validPointerCheck s p = EINVAL := by
  cases p with
  | none => exact Or.inr rfl
  | some up =>
      unfold MEM_validPointerCheck
      dsimp only
      split_ifs <;> simp

theorem validPointerCheck_free_false (s : AllocState) (up : Nat)
    (h : MEM_validPointerCheck s (some up) = 0) :
    (readHdr s.mem (up - HDR)).free = false := by
  unfold MEM_validPointerCheck at h
  dsimp only at h
  split_ifs at h with h1 h2 h3 h4 <;> try exact absurd h (by decide)
  exact Bool.eq_false_iff.mpr h4

/-- Claim C6: for every pointer whose inferred header (at
`ptr - sizeof(header)`) is marked free, `MEM_allocatorFree` returns
`EINVAL` and leaves the allocator state — every header cell, `free_list` and
`last_allocated` — unchanged: the double free is rejected atomically.
(The validator called by the free entry point rejects the pointer before any
store happens.) -/
theorem c6_double_free_rejected (s : AllocState) (p : Option Nat) (up : Nat)
    (hp : p = some up) (hfree : (readHdr s.mem (up - HDR)).free = true) :
    MEM_allocatorFree s p = (EINVAL, s) := by
  subst hp
  rcases validPointerCheck_zero_or_einval s (some up) with hv | hv
  · have := validPointerCheck_free_false s up hv
    rw [hfree] at this
    exact absurd this (by simp)
  · unfold MEM_allocatorFree
    rw [hv]
    simp [EINVAL]

/-- Witness for C6: the second free of the spec's double-free scenario
(`init; p := malloc 16; free p; free p`): the final free is rejected with
`EINVAL` and the state is untouched. -/
theorem c6_double_free_rejected_witness :
    (readHdr t1_sF.mem (48 - HDR)).free = true ∧
    MEM_allocatorFree t1_sF (some 48) = (EINVAL, t1_sF) :=
  ⟨by decide, c6_double_free_rejected t1_sF (some 48) 48 rfl (by decide)⟩

/-- Claim C1 (code bug): in the balanced sequence
`init; p := malloc(16, FIRST_FIT); free(p)` every malloc that returned a
non-null pointer is paired with a successful free of that pointer, and the
region again tiles as a single free block of size `HEAP_SIZE` at the region
base — but `free_list` (the chain head) is left at offset 64, the header of
the suffix block absorbed by the free's forward merge, not at the region
base as the claim requires.  `MEM_mergeBlocks` never updates `free_list`. -/
theorem c1_balanced_sequence_chain_head_bug :
    mptr t1_r1 = some 48 ∧
    t1_f.1 = 0 ∧
    tileWalk t1_sF.mem 64 0 = some [(0, HEAP_SIZE, true)] ∧
    MEM_allocatorInit.freeList = 0 ∧
    t1_sF.freeList = 64 := by decide

/-- Claim C2 (code bug): with no block large enough (`malloc(HEAP_SIZE)`
needs `HEAP_SIZE + sizeof(header)`), the placement search itself correctly
reports `ENOMEM`, and malloc does return a null pointer — but the malloc
entry point records `errno = EINVAL`, not the claimed OutOfMemory kind. -/
theorem c2_oom_errno_bug :
    ALIGN 1024 = 1024 ∧
    MEM_findFirstFit 64 MEM_allocatorInit (ALIGN 1024) = some (ENOMEM, none) ∧
    MEM_allocatorMalloc 64 MEM_allocatorInit 1024 none 0 none .FIRST_FIT =
      some (none, some EINVAL, MEM_allocatorInit) ∧
    EINVAL ≠ ENOMEM := by decide

/-- Claim C3 (code bug): splitting the block at the region base — which is
`chain_head` right after init — reassigns `free_list` to the new free suffix
at offset 64 instead of leaving it at the allocated prefix at offset 0, both
when `MEM_splitBlock` is called directly and inside `malloc(16, FIRST_FIT)`. -/
theorem c3_split_reassigns_chain_head_bug :
    MEM_allocatorInit.freeList = 0 ∧
    (MEM_splitBlock MEM_allocatorInit 0 16).freeList = 64 ∧
    mptr t1_r1 = some 48 ∧
    (readHdr t1_s1.mem 0).free = false ∧
    (readHdr t1_s1.mem 64).free = true ∧
    t1_s1.freeList = 64 := by decide

/-- Claim C4 (code bug): after `init; malloc(16, FF); malloc(16, FF);
free(second)`, the free's forward merge absorbs the free suffix block whose
header sits at offset 128, i.e. exactly the block `free_list` points at;
`MEM_mergeBlocks` leaves `free_list = 128` although the surviving chain
consists only of the blocks at offsets 0 and 64. -/
theorem c4_merge_leaves_chain_head_dangling_bug :
    mptr t4_r2 = some 112 ∧
    t4_f.1 = 0 ∧
    tileWalk t4_sF.mem 64 0 = some [(0, 64, false), (64, 960, true)] ∧
    t4_sF.freeList = 128 ∧
    (128 : Nat) ∉ ([0, 64] : List Nat) := by decide

/-- Claim C5 counterexample: at the reachable state `cs5` (free 288-byte
block at the region base, allocated blocks at 288 and 576, free 160-byte
tail at 864, `free_list = 864`, cursor at 576) the next-fit search for an
aligned size of 240 bytes wraps from the tail to the *region base* and
succeeds with the block at offset 0 — a block that a walk wrapping to
`chain_head` (`findNextFitChainHead`, the claim's algorithm) can never
reach: that walk cycles at offset 864 and does not terminate within the
fuel.  So the claim's wrap target is wrong for this code. -/
theorem c5_wrap_target_counterexample :
    cs5.freeList = 864 ∧
    cs5.lastAllocated = 576 ∧
    tileWalk cs5.mem 64 0 =
      some [(0, 288, true), (288, 288, false), (576, 288, false),
            (864, 160, true)] ∧
    MEM_findNextFit 64 cs5 240 = some (0, some 0, { cs5 with lastAllocated := 0 }) ∧
    findNextFitChainHead 64 cs5 240 = none := by decide

/-- Claim C8 (code bug): a nine-operation sequence of public malloc/free
calls ends, after a *successful* free, with the region tiled as
`[(0,112,allocated), (112,112,allocated), (224,224,free), (448,576,free)]`:
the address-adjacent blocks at offsets 224 and 448 are both free.  The final
free marks the block at 448 free and then merges backward through its
corrupted `prev` pointer (planted by the malloc serviced from the stale
next-fit cursor) instead of coalescing with its real free neighbour at 224. -/
theorem c8_adjacent_free_pair_bug :
    [mptr t8_r1, mptr t8_r2, mptr t8_r3, mptr t8_r4, mptr t8_r5] =
      [some 48, some 160, some 272, some 384, some 496] ∧
    t8_f1.1 = 0 ∧
    t8_f2.1 = 0 ∧
    mptr t8_r6 = some 384 ∧
    t8_f3.1 = 0 ∧
    tileWalk t8_sF.mem 64 0 =
      some [(0, 112, false), (112, 112, false), (224, 224, true),
            (448, 576, true)] ∧
    hasAdjFreePair [(0, 112, false), (112, 112, false), (224, 224, true),
            (448, 576, true)] = true := by decide

/-- Claim C10: the `ALIGN` macro wraps modulo `2^64`: for the nonzero request
`SIZE_MAX = 2^64 - 1` it evaluates to 0, the placement predicate
`block.size >= 0 + sizeof(header)` is satisfied by the initial block, and
malloc returns the non-null payload pointer 48 backed by a block of total
size 48, i.e. a zero-byte payload, far smaller than the requested size,
instead of failing. -/
theorem c10_align_wraparound :
    (2 ^ 64 - 1 : Nat) ≠ 0 ∧
    ALIGN (2 ^ 64 - 1) = 0 ∧
    fits MEM_allocatorInit.mem 0 0 = true ∧
    mptr t10_r = some 48 ∧
    (readHdr (mstate t10_r MEM_allocatorInit).mem 0).size = HDR ∧
    (readHdr (mstate t10_r MEM_allocatorInit).mem 0).size - HDR < 2 ^ 64 - 1 := by
  decide

/-- Claim C7: for every free block `B` (at offset `b`) and aligned size
`size`, `MEM_splitBlock` creates a new free suffix block if and only if
`B.size >= size + sizeof(header) + ARCH_ALIGNMENT`; in that case the suffix
sits at `b + sizeof(header) + size` with size `B.size - sizeof(header) -
size`, and `B` becomes an allocated block of size `size + sizeof(header)`
linked to the suffix; otherwise `B` is only marked allocated and no other
header cell, size or link — nor `free_list` or the cursor — changes. -/
theorem c7_split_threshold (s : AllocState) (b size : Nat)
    (hal : ALIGN size = size)
    (hfree : (readHdr s.mem b).free = true)
    (hsz : (readHdr s.mem b).size < SIZE_T_MOD)
    (hns : size + HDR + ARCH_ALIGNMENT < SIZE_T_MOD) :
    (size + HDR + ARCH_ALIGNMENT ≤ (readHdr s.mem b).size →
      (readHdr (MEM_splitBlock s b size).mem (b + HDR + size)).size
          = (readHdr s.mem b).size - HDR - size ∧
      (readHdr (MEM_splitBlock s b size).mem (b + HDR + size)).free = true ∧
      (readHdr (MEM_splitBlock s b size).mem b).size = size + HDR ∧
      (readHdr (MEM_splitBlock s b size).mem b).free = false ∧
      (readHdr (MEM_splitBlock s b size).mem b).next = some (b + HDR + size)) ∧
    ((readHdr s.mem b).size < size + HDR + ARCH_ALIGNMENT →
      readHdr (MEM_splitBlock s b size).mem b
          = { readHdr s.mem b with free := false } ∧
      (∀ x, x ≠ b → readHdr (MEM_splitBlock s b size).mem x = readHdr s.mem x) ∧
      (MEM_splitBlock s b size).freeList = s.freeList ∧
      (MEM_splitBlock s b size).lastAllocated = s.lastAllocated) := by
  have hH : HDR = 48 := rfl
  have hA : ARCH_ALIGNMENT = 16 := rfl
  have hne : b + HDR + size ≠ b := by omega
  have hne2 : b ≠ b + HDR + size := by omega
  constructor
  · intro hge
    have e1 : subw (readHdr s.mem b).size HDR = (readHdr s.mem b).size - HDR :=
      subw_eq (by omega) hsz
    have e2 : subw ((readHdr s.mem b).size - HDR) size
        = (readHdr s.mem b).size - HDR - size :=
      subw_eq (by omega) (by omega)
    have e3 : addw size HDR = size + HDR :=
      addw_eq (by omega)
    have e4 : addw (size + HDR) ARCH_ALIGNMENT = size + HDR + ARCH_ALIGNMENT :=
      addw_eq hns
    unfold MEM_splitBlock
    simp only [hal, e1, e2, e3, e4, if_pos hge]
    rcases hnx : (readHdr s.mem b).next with _ | q
    · simp [readHdr_writeHdr, hne, hne2]
    · by_cases hq1 : q = b + HDR + size
      · subst hq1
        simp [readHdr_updHdr, readHdr_writeHdr, hne, hne2]
      · by_cases hq2 : q = b
        · subst hq2
          simp [readHdr_updHdr, readHdr_writeHdr, hne, hne2, hq1]
        · have hq1a : ¬ (b + HDR + size = q) := fun hh => hq1 hh.symm
          have hq2a : ¬ (b = q) := fun hh => hq2 hh.symm
          simp [readHdr_updHdr, readHdr_writeHdr, hne, hne2, hq1a, hq2a]
  · intro hlt
    have e3 : addw size HDR = size + HDR :=
      addw_eq (by omega)
    have e4 : addw (size + HDR) ARCH_ALIGNMENT = size + HDR + ARCH_ALIGNMENT :=
      addw_eq hns
    have hltw : ¬ (size + HDR + ARCH_ALIGNMENT ≤ (readHdr s.mem b).size) := by
      omega
    unfold MEM_splitBlock
    simp only [hal, e3, e4, if_neg hltw]
    refine ⟨?_, ?_, trivial, trivial⟩
    · rw [readHdr_writeHdr, if_pos rfl]
    · intro x hx
      rw [readHdr_writeHdr, if_neg hx]

/-- Witness for C7: splitting the post-init whole-heap block (offset 0, size
1024) for an aligned size of 64 bytes satisfies the hypotheses, and the
conclusion holds there (the split branch applies: 1024 >= 64 + 48 + 16). -/
theorem c7_split_threshold_witness :
    (ALIGN 64 = 64 ∧
     (readHdr MEM_allocatorInit.mem 0).free = true ∧
     (readHdr MEM_allocatorInit.mem 0).size < SIZE_T_MOD ∧
     64 + HDR + ARCH_ALIGNMENT < SIZE_T_MOD) ∧
    ((64 + HDR + ARCH_ALIGNMENT ≤ (readHdr MEM_allocatorInit.mem 0).size →
      (readHdr (MEM_splitBlock MEM_allocatorInit 0 64).mem (0 + HDR + 64)).size
          = (readHdr MEM_allocatorInit.mem 0).size - HDR - 64 ∧
      (readHdr (MEM_splitBlock MEM_allocatorInit 0 64).mem (0 + HDR + 64)).free = true ∧
      (readHdr (MEM_splitBlock MEM_allocatorInit 0 64).mem 0).size = 64 + HDR ∧
      (readHdr (MEM_splitBlock MEM_allocatorInit 0 64).mem 0).free = false ∧
      (readHdr (MEM_splitBlock MEM_allocatorInit 0 64).mem 0).next = some (0 + HDR + 64)) ∧
    ((readHdr MEM_allocatorInit.mem 0).size < 64 + HDR + ARCH_ALIGNMENT →
      readHdr (MEM_splitBlock MEM_allocatorInit 0 64).mem 0
          = { readHdr MEM_allocatorInit.mem 0 with free := false } ∧
      (∀ x, x ≠ 0 → readHdr (MEM_splitBlock MEM_allocatorInit 0 64).mem x
          = readHdr MEM_allocatorInit.mem x) ∧
      (MEM_splitBlock MEM_allocatorInit 0 64).freeList = MEM_allocatorInit.freeList ∧
      (MEM_splitBlock MEM_allocatorInit 0 64).lastAllocated
          = MEM_allocatorInit.lastAllocated)) :=
  ⟨⟨by decide, by decide, by decide, by decide⟩,
   c7_split_threshold MEM_allocatorInit 0 64 (by decide) (by decide) (by decide)
     (by decide)⟩

theorem nfLoop_eq_find (m : Mem) (size start : Nat) :
    ∀ (fuel cur : Nat) (l : List Nat),
      nfVisit m start fuel cur = some l →
      nfLoop m size start fuel cur = some (l.find? (fits m size)) := by
  intro fuel
  induction fuel with
  | zero =>
      intro cur l h
      simp [nfVisit] at h
  | succ fuel ih =>
      intro cur l h
      simp only [nfVisit] at h
      rw [nfLoop]
      by_cases hw : ((readHdr m cur).next).getD 0 = start
      · rw [if_pos hw] at h
        injection h with h
        subst h
        by_cases hf : fits m size cur = true
        · rw [if_pos hf]
          rw [List.find?_cons_of_pos _ hf]
        · rw [if_neg hf, if_pos hw]
          rw [List.find?_cons_of_neg _ (by simpa using hf), List.find?_nil]
      · rw [if_neg hw] at h
        rcases hmap : nfVisit m start fuel (((readHdr m cur).next).getD 0)
          with _ | l2
        · rw [hmap] at h
          simp at h
        · rw [hmap] at h
          simp only [Option.map_some'] at h
          injection h with h
          subst h
          by_cases hf : fits m size cur = true
          · rw [if_pos hf]
            rw [List.find?_cons_of_pos _ hf]
          · rw [if_neg hf, if_neg hw, ih _ _ hmap,
              List.find?_cons_of_neg _ (by simpa using hf)]

/-- Claim C5 (amended): the next-fit search starts at the cursor
(`last_allocated`), walks forward and, on reaching the chain tail
(`next == null`), continues at the *raw region base* (offset 0, the wrap
target hard-coded in `MEM_findNextFit`); it stops at the first block
satisfying the placement predicate, updating the cursor to that block, and
fails with `ENOMEM` when the walk returns to the starting block without
success.  `nfVisit` is exactly that visiting order (wrap target 0), so the
search result is `find?` of the placement predicate over it. -/
theorem c5_next_fit_wraps_to_region_base (s : AllocState) (size fuel : Nat)
    (l : List Nat)
    (hv : nfVisit s.mem s.lastAllocated fuel s.lastAllocated = some l) :
    MEM_findNextFit fuel s size =
      match l.find? (fits s.mem size) with
      | some b => some (0, some b, { s with lastAllocated := b })
      | none => some (ENOMEM, none, s) := by
  unfold MEM_findNextFit
  rw [nfLoop_eq_find s.mem size s.lastAllocated fuel s.lastAllocated l hv]
  cases l.find? (fits s.mem size) with
  | none => rfl
  | some b => rfl

/-- Witness for C5's amended theorem: on the freshly initialized allocator
the cursor is the single whole-heap block, the wrap closes immediately
(`nfVisit` yields `[0]`), and next-fit for 64 bytes returns that block and
re-points the cursor at it. -/
theorem c5_next_fit_wraps_to_region_base_witness :
    nfVisit MEM_allocatorInit.mem MEM_allocatorInit.lastAllocated 5
        MEM_allocatorInit.lastAllocated = some [0] ∧
    MEM_findNextFit 5 MEM_allocatorInit 64 =
      match [0].find? (fits MEM_allocatorInit.mem 64) with
      | some b => some (0, some b, { MEM_allocatorInit with lastAllocated := b })
      | none => some (ENOMEM, none, MEM_allocatorInit) :=
  ⟨by decide,
   c5_next_fit_wraps_to_region_base MEM_allocatorInit 64 5 [0] (by decide)⟩

theorem bfLoop_eq_foldl (m : Mem) (size : Nat) :
    ∀ (fuel : Nat) (cur : Option Nat) (l : List Nat) (best : Option Nat),
      walkChain m fuel cur = some l →
      bfLoop m size fuel cur best = some (l.foldl (bestStep m size) best) := by
  intro fuel
  induction fuel with
  | zero =>
      intro cur l best h
      cases cur with
      | none =>
          simp [walkChain] at h
          subst h
          simp [bfLoop]
      | some c => simp [walkChain] at h
  | succ fuel ih =>
      intro cur l best h
      cases cur with
      | none =>
          simp [walkChain] at h
          subst h
          simp [bfLoop]
      | some c =>
          simp only [walkChain] at h
          rcases hmap : walkChain m fuel (readHdr m c).next with _ | l2
          · rw [hmap] at h
            simp at h
          · rw [hmap] at h
            simp only [Option.map_some'] at h
            injection h with h
            subst h
            rw [bfLoop, ih _ _ _ hmap, List.foldl_cons]

theorem bestInv_step (m : Mem) (size : Nat) (p : List Nat) (acc : Option Nat)
    (c : Nat) (h : BestInv m size p acc) :
    BestInv m size (p ++ [c]) (bestStep m size acc c) := by
  unfold bestStep
  by_cases hf : fits m size c = true
  · rw [if_pos hf]
    cases acc with
    | none =>
        simp only [BestInv] at h
        refine ⟨hf, ?_, p, [], rfl, ?_⟩
        · intro x hx hfx
          rcases List.mem_append.mp hx with hx | hx
          · rw [h x hx] at hfx
            exact absurd hfx (by simp)
          · rw [List.mem_singleton.mp hx]
        · intro x hx hfx
          rw [h x hx] at hfx
          exact absurd hfx (by simp)
    | some b =>
        obtain ⟨hbf, hmin, l1, l2, hp, hfirst⟩ := h
        dsimp only
        by_cases hlt : (readHdr m c).size < (readHdr m b).size
        · rw [if_pos hlt]
          refine ⟨hf, ?_, p, [], rfl, ?_⟩
          · intro x hx hfx
            rcases List.mem_append.mp hx with hx | hx
            · exact le_of_lt (lt_of_lt_of_le hlt (hmin x hx hfx))
            · rw [List.mem_singleton.mp hx]
          · intro x hx hfx
            exact lt_of_lt_of_le hlt (hmin x hx hfx)
        · rw [if_neg hlt]
          refine ⟨hbf, ?_, l1, l2 ++ [c], by rw [hp]; simp, hfirst⟩
          intro x hx hfx
          rcases List.mem_append.mp hx with hx | hx
          · exact hmin x hx hfx
          · rw [List.mem_singleton.mp hx]
            omega
  · rw [if_neg hf]
    cases acc with
    | none =>
        simp only [BestInv] at h ⊢
        intro x hx
        rcases List.mem_append.mp hx with hx | hx
        · exact h x hx
        · rw [List.mem_singleton.mp hx]
          simpa using hf
    | some b =>
        obtain ⟨hbf, hmin, l1, l2, hp, hfirst⟩ := h
        refine ⟨hbf, ?_, l1, l2 ++ [c], by rw [hp]; simp, hfirst⟩
        intro x hx hfx
        rcases List.mem_append.mp hx with hx | hx
        · exact hmin x hx hfx
        · rw [List.mem_singleton.mp hx] at hfx
          exact absurd hfx hf

theorem bestInv_foldl (m : Mem) (size : Nat) :
    ∀ (l p : List Nat) (acc : Option Nat),
      BestInv m size p acc →
      BestInv m size (p ++ l) (l.foldl (bestStep m size) acc) := by
  intro l
  induction l with
  | nil =>
      intro p acc h
      simpa using h
  | cons c t ih =>
      intro p acc h
      have h2 := bestInv_step m size p acc c h
      have h3 := ih (p ++ [c]) (bestStep m size acc c) h2
      rw [List.append_assoc] at h3
      simpa using h3

/-- Claim C9: for every aligned size, the best-fit search over the chain
walked from `free_list` (the chain head) either returns a block passing the
placement predicate whose size is minimal among all passing blocks in the
chain, breaking ties by the first block encountered in the walk (the chain is
address-ordered, so that is the lowest address), or fails with `ENOMEM` when
no block in the chain passes. -/
theorem c9_best_fit_correct (s : AllocState) (size fuel : Nat) (l : List Nat)
    (hw : walkChain s.mem fuel (some s.freeList) = some l) :
    (∃ b, MEM_findBestFit fuel s size = some (0, some b) ∧
       fits s.mem size b = true ∧
       (∀ x ∈ l, fits s.mem size x = true →
          (readHdr s.mem b).size ≤ (readHdr s.mem x).size) ∧
       ∃ l1 l2, l = l1 ++ b :: l2 ∧
          ∀ x ∈ l1, fits s.mem size x = true →
            (readHdr s.mem b).size < (readHdr s.mem x).size) ∨
    (MEM_findBestFit fuel s size = some (ENOMEM, none) ∧
       ∀ x ∈ l, fits s.mem size x = false) := by
  have h0 : BestInv s.mem size [] none := by
    simp [BestInv]
  have hinv := bestInv_foldl s.mem size l [] none h0
  rw [List.nil_append] at hinv
  have heq := bfLoop_eq_foldl s.mem size fuel (some s.freeList) l none hw
  unfold MEM_findBestFit
  rw [heq]
  cases hres : l.foldl (bestStep s.mem size) none with
  | none =>
      right
      rw [hres] at hinv
      simp only [BestInv] at hinv
      exact ⟨rfl, hinv⟩
  | some b =>
      left
      rw [hres] at hinv
      simp only [BestInv] at hinv
      obtain ⟨h1, h2, h3⟩ := hinv
      exact ⟨b, rfl, h1, h2, h3⟩

/-- Witness for C9: on the freshly initialized allocator the chain is the
single whole-heap block `[0]`, and best-fit for 64 bytes returns it (the left
disjunct holds with `b = 0`). -/
theorem c9_best_fit_correct_witness :
    walkChain MEM_allocatorInit.mem 5 (some MEM_allocatorInit.freeList)
        = some [0] ∧
    ((∃ b, MEM_findBestFit 5 MEM_allocatorInit 64 = some (0, some b) ∧
       fits MEM_allocatorInit.mem 64 b = true ∧
       (∀ x ∈ [0], fits MEM_allocatorInit.mem 64 x = true →
          (readHdr MEM_allocatorInit.mem b).size
            ≤ (readHdr MEM_allocatorInit.mem x).size) ∧
       ∃ l1 l2, [0] = l1 ++ b :: l2 ∧
          ∀ x ∈ l1, fits MEM_allocatorInit.mem 64 x = true →
            (readHdr MEM_allocatorInit.mem b).size
              < (readHdr MEM_allocatorInit.mem x).size) ∨
    (MEM_findBestFit 5 MEM_allocatorInit 64 = some (ENOMEM, none) ∧
       ∀ x ∈ [0], fits MEM_allocatorInit.mem 64 x = false)) :=
  ⟨by decide, c9_best_fit_correct MEM_allocatorInit 64 5 [0] (by decide)⟩
